import Mathlib

/-!
# Verification of the Turing machine simulator (`main.py`)

Shallow embedding of the execution engine of the simulator: the tape
operations (`input_tape`, `go_right`, `go_left`, `read`, `write`), the
construction validation performed by `__init__`, and the single-step
function `next`.  Python's mutable object is modelled by explicit state
passing on a `TuringMachine` structure; a `Result | None` return value is
an `Option Result`; a runtime `IndexError` on an out-of-range tape access
is modelled by `Option` on the whole step; a `ValueError` raised by the
constructor is an `Except` error.
-/

namespace TMSim

/-- `Symbol = str` in the source. -/
abbrev Symbol := String

/-- `State = str` in the source. -/
abbrev State := String

/-- `Direction = bool` in the source. -/
abbrev Direction := Bool

/-- `Result = bool` in the source. -/
abbrev Result := Bool

/-- `TransitionFunction = dict[State, dict[Symbol, tuple[Symbol, State, Direction]]]`:
the nested dictionaries are modelled as a curried partial lookup, `none`
standing for an absent key at either level. -/
abbrev TransitionFunction := State → Symbol → Option (Symbol × State × Direction)

/-- `RIGHT = False`. -/
def RIGHT : Direction := false

/-- `LEFT = True`. -/
def LEFT : Direction := true

/-- `BLANK = ""`. -/
def BLANK : Symbol := ""

/-- `ACCEPT = True`. -/
def ACCEPT : Result := true

/-- `REJECT = False`. -/
def REJECT : Result := false

/-- The fields of a `TuringMachine` object that `__init__` sets:
`_states`, `_accepting`, `_current_state`, `_delta`.  The tape fields are
assigned only later, by `input_tape`, so they live in the extending
structure `TuringMachine` below. -/
structure MachineDef where
  states : Finset State
  accepting : Finset State
  current_state : State
  delta : TransitionFunction

/-- The full object state once `input_tape` has run: `_tape`,
`_tape_length` and `_index` (Python ints; both are established and kept
nonnegative by every operation, so `Nat` is used). -/
structure TuringMachine extends MachineDef where
  tape : List Symbol
  tape_length : Nat
  index : Nat

/-- The errors `__init__` raises (`ValueError` with a message identifying
the offending data). -/
inductive ConstructionError where
  | initial_not_in_states (s : State)
  | invalid_accepting (invalid : Finset State)
deriving DecidableEq

/-- `TuringMachine.__init__`: validates `initial_state ∈ states` and
`accepting_states ⊆ states` (in that order), raising otherwise, then
stores the fields. -/
def TuringMachine.construct (states : Finset State) (initial_state : State)
    (delta : TransitionFunction) (accepting_states : Finset State) :
    Except ConstructionError MachineDef :=
  if initial_state ∉ states then
    .error (.initial_not_in_states initial_state)
  else if ¬ accepting_states ⊆ states then
    .error (.invalid_accepting (accepting_states \ states))
  else
    .ok { states := states, current_state := initial_state, delta := delta,
          accepting := accepting_states }

/-- `TuringMachine.input_tape`: an empty input is replaced by `[BLANK]`;
sets `_tape`, `_tape_length` and `_index` and touches no other field (in
particular `_current_state` is left as it is). -/
def TuringMachine.input_tape (m : TuringMachine) (t : List Symbol) :
    TuringMachine :=
  let t := if t.isEmpty then [BLANK] else t
  { m with tape := t, tape_length := t.length, index := 0 }

/-- Constructing the object and then calling `input_tape` for the first
time: the fields of `d` come from `__init__`, the tape fields from
`input_tape`. -/
def MachineDef.start (d : MachineDef) (t : List Symbol) : TuringMachine :=
  let t := if t.isEmpty then [BLANK] else t
  { toMachineDef := d, tape := t, tape_length := t.length, index := 0 }

/-- `TuringMachine.go_right`: if the head is on the last cell
(`_index == _tape_length - 1`), append one `BLANK` and bump
`_tape_length`; then always advance `_index` by one.  (The Python ints
coincide with `Nat` here: `_tape_length - 1` could differ from truncated
subtraction only when `_tape_length = 0`, a state no execution reaches
since `input_tape` makes the tape nonempty and no operation shrinks it.) -/
def TuringMachine.go_right (m : TuringMachine) : TuringMachine :=
  let m :=
    if m.index = m.tape_length - 1 then
      { m with tape := m.tape ++ [BLANK], tape_length := m.tape_length + 1 }
    else m
  { m with index := m.index + 1 }

/-- `TuringMachine.go_left`: if the head is at cell 0, prepend one `BLANK`
and bump `_tape_length` (the head index stays 0, now naming the new
cell); otherwise decrement `_index`. -/
def TuringMachine.go_left (m : TuringMachine) : TuringMachine :=
  if m.index = 0 then
    { m with tape := BLANK :: m.tape, tape_length := m.tape_length + 1 }
  else
    { m with index := m.index - 1 }

/-- `TuringMachine.read`: `self._tape[self._index]`.  Python raises
`IndexError` out of range; that partiality is the `none` case. -/
def TuringMachine.read (m : TuringMachine) : Option Symbol :=
  m.tape.get? m.index

/-- `TuringMachine.write`: `self._tape[self._index] = symbol`.  `List.set`
leaves the list unchanged out of range where Python raises `IndexError`;
the one caller (`next`) writes only after a successful `read` at the same
index, so the two agree on every reachable call. -/
def TuringMachine.write (m : TuringMachine) (symbol : Symbol) : TuringMachine :=
  { m with tape := m.tape.set m.index symbol }

/-- `TuringMachine.next`: read the symbol under the head, look the pair
up in `_delta`; if absent return `REJECT` unchanged, otherwise write the
new symbol, set the new state, move (`go_right` when the direction equals
`RIGHT`, else `go_left`), and return `ACCEPT` if the new state is
accepting, `None` (here `none`) otherwise.  The outer `Option` is the
possibility of an `IndexError` in `read`; the step outcome paired with
the post-state is `some ACCEPT`, `some REJECT` or `none` exactly as the
source returns `ACCEPT`, `REJECT` or `None`. -/
def TuringMachine.next (m : TuringMachine) :
    Option (Option Result × TuringMachine) :=
  match m.read with
  | none => none
  | some symbol =>
    match m.delta m.current_state symbol with
    | none => some (some REJECT, m)
    | some (new_symbol, new_state, direction) =>
      let m1 : TuringMachine :=
        { m.write new_symbol with current_state := new_state }
      let m2 : TuringMachine :=
        if direction = RIGHT then m1.go_right else m1.go_left
      if new_state ∈ m.accepting then some (some ACCEPT, m2)
      else some (none, m2)

/-- The outcome of one step, forgetting the post-state. -/
def stepOutcome (m : TuringMachine) : Option (Option Result) :=
  (m.next).map Prod.fst

/-- The post-state of one step (the machine itself when `read` fails,
a case no claim exercises). -/
def stepMachine (m : TuringMachine) : TuringMachine :=
  match m.next with
  | some (_, m') => m'
  | none => m

/-- A sequence of head moves, each applied as `next` applies a direction:
`go_right` on `RIGHT`, `go_left` on `LEFT`. -/
def apply_moves : TuringMachine → List Direction → TuringMachine
  | m, [] => m
  | m, mv :: mvs =>
      apply_moves (if mv = RIGHT then m.go_right else m.go_left) mvs

/-- The head-position invariant `0 ≤ head_index < length` (the lower
bound is inherent to `Nat`). -/
def head_ok (m : TuringMachine) : Prop := m.index < m.tape_length

/-- The stored length counter agrees with the number of cells. -/
def len_ok (m : TuringMachine) : Prop := m.tape_length = m.tape.length

instance (m : TuringMachine) : Decidable (head_ok m) := by
  unfold head_ok; infer_instance

instance (m : TuringMachine) : Decidable (len_ok m) := by
  unfold len_ok; infer_instance

/-- Scenario A transition table: no transitions at all. -/
def deltaA : TransitionFunction := fun _ _ => none

/-- Scenario A machine definition: single state `q0`, accepting `{q0}`. -/
def defA : MachineDef :=
  { states := {"q0"}, accepting := {"q0"}, current_state := "q0",
    delta := deltaA }

/-- Scenario A machine on input `"1"`. -/
def machineA : TuringMachine := defA.start ["1"]

/-- Scenario B transition table: `{q0: {'1': ('1', q1, RIGHT)}}`. -/
def deltaB : TransitionFunction := fun s sym =>
  if s = "q0" then
    if sym = "1" then some ("1", "q1", RIGHT) else none
  else none

/-- Scenario B machine definition: states `{q0, q1}`, initial `q0`,
accepting `{q1}`. -/
def defB : MachineDef :=
  { states := {"q0", "q1"}, accepting := {"q1"}, current_state := "q0",
    delta := deltaB }

/-- Scenario B machine on input `"1"`. -/
def machineB : TuringMachine := defB.start ["1"]

/-- A table with a transition out of the accepting state `q1`:
`{q0: {'1': ('1', q1, RIGHT)}, q1: {BLANK: (BLANK, q0, RIGHT)}}`. -/
def deltaE : TransitionFunction := fun s sym =>
  if s = "q0" then
    if sym = "1" then some ("1", "q1", RIGHT) else none
  else if s = "q1" then
    if sym = BLANK then some (BLANK, "q0", RIGHT) else none
  else none

/-- Machine over `deltaE`: states `{q0, q1}`, initial `q0`,
accepting `{q1}`. -/
def defE : MachineDef :=
  { states := {"q0", "q1"}, accepting := {"q1"}, current_state := "q0",
    delta := deltaE }

/-- `defE` started on input `"1"`. -/
def machineE : TuringMachine := defE.start ["1"]

/-- Unfolding `next` when `read` fails. -/
lemma next_read_none {m : TuringMachine} (hr : m.read = none) :
    m.next = none := by
  simp only [TuringMachine.next, hr]

/-- Unfolding `next` when the transition table has no entry. -/
lemma next_delta_none {m : TuringMachine} {sym : Symbol}
    (hr : m.read = some sym)
    (hd : m.delta m.current_state sym = none) :
    m.next = some (some REJECT, m) := by
  simp only [TuringMachine.next, hr, hd]

/-- Unfolding `next` when the transition table has an entry. -/
lemma next_delta_some {m : TuringMachine} {sym new_sym : Symbol} {q : State}
    {dir : Direction}
    (hr : m.read = some sym)
    (hd : m.delta m.current_state sym = some (new_sym, q, dir)) :
    m.next = some ((if q ∈ m.accepting then some ACCEPT else none),
      if dir = RIGHT then ({ m.write new_sym with current_state := q }).go_right
      else ({ m.write new_sym with current_state := q }).go_left) := by
  simp only [TuringMachine.next, hr, hd]
  split <;> rfl

/-- What one applied transition does to the machine, phrased with the
tape primitives, together with the concrete Scenario B observations. -/
def step_transition_spec (m : TuringMachine) (new_sym : Symbol) (q : State)
    (dir : Direction) : Prop :=
  m.next = some ((if q ∈ m.accepting then some ACCEPT else none),
    if dir = RIGHT then ({ m.write new_sym with current_state := q }).go_right
    else ({ m.write new_sym with current_state := q }).go_left)

/-- The concrete observations of Scenario B: first step accepts, new
state `q1`, tape grown to `["1", BLANK]` (length 2), head at index 1. -/
def scenarioB_spec : Prop :=
  stepOutcome machineB = some (some ACCEPT) ∧
  (stepMachine machineB).current_state = "q1" ∧
  (stepMachine machineB).tape = ["1", BLANK] ∧
  (stepMachine machineB).tape_length = 2 ∧
  (stepMachine machineB).index = 1

/-- C1: whenever the table defines `(new_sym, q, dir)` for the current
state and the symbol under the head, one `next` call writes `new_sym` at
the head, sets the current state to `q`, then moves right when `dir` is
`RIGHT` and left otherwise, and the outcome is `ACCEPT` exactly when
`q` is accepting and Continue (`none`) otherwise; in particular Scenario
B steps to Accept with state `q1`, tape length 2 and head index 1. -/
theorem step_applies_transition_c1 (m : TuringMachine)
    (sym new_sym : Symbol) (q : State) (dir : Direction)
    (hread : m.read = some sym)
    (hdelta : m.delta m.current_state sym = some (new_sym, q, dir)) :
    step_transition_spec m new_sym q dir ∧ scenarioB_spec :=
  ⟨next_delta_some hread hdelta,
   by decide, by decide, by decide, by decide, by decide⟩

/-- Witness for C1: Scenario B's machine satisfies the hypotheses and
hence the conclusion. -/
theorem step_applies_transition_c1_witness :
    machineB.read = some "1" ∧
    machineB.delta machineB.current_state "1" = some ("1", "q1", RIGHT) ∧
    (step_transition_spec machineB "1" "q1" RIGHT ∧ scenarioB_spec) :=
  ⟨rfl, rfl, step_applies_transition_c1 machineB "1" "1" "q1" RIGHT rfl rfl⟩

/-- C2: when the table defines no action for the current state and the
symbol under the head, `next` returns `REJECT` and the machine — tape
contents, tape length, head index and current state — is unchanged. -/
theorem step_reject_unchanged_c2 (m : TuringMachine) (sym : Symbol)
    (hread : m.read = some sym)
    (hdelta : m.delta m.current_state sym = none) :
    m.next = some (some REJECT, m) :=
  next_delta_none hread hdelta

/-- Witness for C2: Scenario A's machine (no transitions at all) rejects
and is returned unchanged. -/
theorem step_reject_unchanged_c2_witness :
    machineA.read = some "1" ∧
    machineA.delta machineA.current_state "1" = none ∧
    machineA.next = some (some REJECT, machineA) :=
  ⟨rfl, rfl, step_reject_unchanged_c2 machineA "1" rfl rfl⟩

/-- `go_right` never touches the current state. -/
lemma go_right_current_state (m : TuringMachine) :
    m.go_right.current_state = m.current_state := by
  simp only [TuringMachine.go_right]
  split <;> rfl

/-- `go_left` never touches the current state. -/
lemma go_left_current_state (m : TuringMachine) :
    m.go_left.current_state = m.current_state := by
  simp only [TuringMachine.go_left]
  split <;> rfl

/-- C9: Scenario A — single state `q0`, accepting `{q0}`, empty table,
input `"1"` — rejects on the very first step although the initial state
is accepting; and in general an `ACCEPT` outcome arises only by taking a
defined transition whose destination state is accepting. -/
theorem accept_only_via_transition_c9 :
    machineA.next = some (some REJECT, machineA) ∧
    ∀ m m' : TuringMachine, m.next = some (some ACCEPT, m') →
      ∃ sym new_sym q dir, m.read = some sym ∧
        m.delta m.current_state sym = some (new_sym, q, dir) ∧
        q ∈ m.accepting ∧ m'.current_state = q := by
  refine ⟨rfl, ?_⟩
  intro m m' h
  cases hr : m.read with
  | none => rw [next_read_none hr] at h; exact absurd h (by simp)
  | some sym =>
    cases hd : m.delta m.current_state sym with
    | none =>
      rw [next_delta_none hr hd] at h
      simp [REJECT, ACCEPT] at h
    | some act =>
      obtain ⟨new_sym, q, dir⟩ := act
      rw [next_delta_some hr hd] at h
      by_cases hq : q ∈ m.accepting
      · refine ⟨sym, new_sym, q, dir, rfl, hd, hq, ?_⟩
        simp only [hq, if_true, Option.some.injEq, Prod.mk.injEq, true_and]
          at h
        rw [← h]
        by_cases hdir : dir = RIGHT <;>
          simp [hdir, go_right_current_state, go_left_current_state]
      · simp [hq, ACCEPT] at h

/-- Witness for C9: Scenario B's accepting first step instantiates the
universally quantified part. -/
theorem accept_only_via_transition_c9_witness :
    ∃ sym new_sym q dir, machineB.read = some sym ∧
      machineB.delta machineB.current_state sym = some (new_sym, q, dir) ∧
      q ∈ machineB.accepting ∧ (stepMachine machineB).current_state = q :=
  accept_only_via_transition_c9.2 machineB (stepMachine machineB) rfl

/-- C5, counterexample: over `deltaE` (which has a transition out of the
accepting state `q1` on `BLANK`) the first step returns Accept, yet a
further `next` call silently continues the computation as an ordinary
step: it returns Continue (`some none`), changes the current state from
`q1` back to `q0` and advances the head from 1 to 2 — the terminal
status does not persist. -/
theorem post_accept_not_terminal_c5_counterexample :
    stepOutcome machineE = some (some ACCEPT) ∧
    stepOutcome (stepMachine machineE) = some none ∧
    (stepMachine machineE).current_state = "q1" ∧
    (stepMachine (stepMachine machineE)).current_state = "q0" ∧
    (stepMachine machineE).index = 1 ∧
    (stepMachine (stepMachine machineE)).index = 2 := by decide

/-- C5 (amended): the simulator stores no terminal status.  A `REJECT`
outcome is stable: the machine is returned unchanged, so every further
`next` call returns `REJECT` again with no change to tape, head or
state.  An `ACCEPT` outcome, however, is only a returned value — a
further `next` call executes as an ordinary step and can silently
continue the computation (see the counterexample). -/
theorem reject_terminal_c5 (m m' : TuringMachine)
    (h : m.next = some (some REJECT, m')) :
    m' = m ∧ m'.next = some (some REJECT, m') := by
  have hm : m' = m := by
    cases hr : m.read with
    | none => rw [next_read_none hr] at h; exact absurd h (by simp)
    | some sym =>
      cases hd : m.delta m.current_state sym with
      | none =>
        rw [next_delta_none hr hd] at h
        simp only [Option.some.injEq, Prod.mk.injEq, true_and] at h
        exact h.symm
      | some act =>
        obtain ⟨new_sym, q, dir⟩ := act
        rw [next_delta_some hr hd] at h
        by_cases hq : q ∈ m.accepting <;> simp [hq, ACCEPT, REJECT] at h
  subst hm
  exact ⟨rfl, h⟩

/-- Witness for C5: Scenario A's rejecting step is stable. -/
theorem reject_terminal_c5_witness :
    machineA.next = some (some REJECT, machineA) ∧
    (machineA = machineA ∧ machineA.next = some (some REJECT, machineA)) :=
  ⟨rfl, reject_terminal_c5 machineA machineA rfl⟩

/-- `go_right` preserves the head invariant. -/
lemma head_ok_go_right {m : TuringMachine} (h : head_ok m) :
    head_ok m.go_right := by
  unfold head_ok at *
  simp only [TuringMachine.go_right]
  split <;> (try dsimp only) <;> omega

/-- `go_left` preserves the head invariant. -/
lemma head_ok_go_left {m : TuringMachine} (h : head_ok m) :
    head_ok m.go_left := by
  unfold head_ok at *
  simp only [TuringMachine.go_left]
  split <;> (try dsimp only) <;> omega

/-- `input_tape`-style initialization establishes the head invariant. -/
lemma head_ok_start (d : MachineDef) (input : List Symbol) :
    head_ok (d.start input) := by
  unfold head_ok MachineDef.start
  cases input <;> simp

/-- Any sequence of moves preserves the head invariant. -/
lemma head_ok_apply_moves (mvs : List Direction) :
    ∀ m : TuringMachine, head_ok m → head_ok (apply_moves m mvs) := by
  induction mvs with
  | nil => intro m h; exact h
  | cons mv mvs ih =>
    intro m h
    simp only [apply_moves]
    apply ih
    by_cases hmv : mv = RIGHT
    · simpa [hmv] using head_ok_go_right h
    · simpa [hmv] using head_ok_go_left h

/-- C3: starting from a tape initialized from any (possibly empty)
input, after any finite sequence of `go_left`/`go_right` calls the head
invariant `0 ≤ head_index < length` holds (the lower bound is inherent
to `Nat`); since this is proved for every sequence, it holds after each
individual call of the sequence. -/
theorem head_invariant_c3 (d : MachineDef) (input : List Symbol)
    (moves : List Direction) :
    head_ok (apply_moves (d.start input) moves) :=
  head_ok_apply_moves moves _ (head_ok_start d input)

/-- The observable effect of a single move, as §4.1 of the spec states
it: growing moves extend the tape by exactly one `BLANK` cell, non-
growing moves only shift the head, and no move grows by more than one
cell. -/
def growth_spec (m : TuringMachine) : Prop :=
  (m.go_right).index = m.index + 1 ∧
  (m.index = m.tape_length - 1 →
    (m.go_right).tape_length = m.tape_length + 1 ∧
    (m.go_right).tape.get? m.tape.length = some BLANK) ∧
  (m.index ≠ m.tape_length - 1 →
    (m.go_right).tape_length = m.tape_length ∧ (m.go_right).tape = m.tape) ∧
  (m.index = 0 →
    (m.go_left).tape_length = m.tape_length + 1 ∧
    (m.go_left).index = 0 ∧ (m.go_left).tape.get? 0 = some BLANK) ∧
  (m.index ≠ 0 →
    (m.go_left).tape_length = m.tape_length ∧
    (m.go_left).index = m.index - 1 ∧ (m.go_left).tape = m.tape) ∧
  (m.go_right).tape.length ≤ m.tape.length + 1 ∧
  (m.go_left).tape.length ≤ m.tape.length + 1

/-- C4: on any machine state satisfying the head invariant, `go_right`
from the rightmost cell grows the tape by exactly one `BLANK` cell,
`go_right` elsewhere leaves the length alone and advances the head by 1,
`go_left` at index 0 grows by exactly one `BLANK` cell with the head
staying on the new leftmost cell, `go_left` elsewhere only decrements
the head, and no move ever grows the tape by more than one cell. -/
theorem growth_correct_c4 (m : TuringMachine) (hinv : head_ok m) :
    growth_spec m := by
  unfold growth_spec
  refine ⟨?_, ?_, ?_, ?_, ?_, ?_, ?_⟩
  · simp only [TuringMachine.go_right]; split <;> rfl
  · intro he
    simp [TuringMachine.go_right, he, List.get?_concat_length]
  · intro hne
    simp [TuringMachine.go_right, hne]
  · intro h0
    simp [TuringMachine.go_left, h0]
  · intro hne
    simp [TuringMachine.go_left, hne]
  · simp only [TuringMachine.go_right]
    split <;> simp
  · simp only [TuringMachine.go_left]
    split <;> simp

/-- Witness for C4: Scenario A's machine satisfies the head invariant
and hence the growth specification. -/
theorem growth_correct_c4_witness : head_ok machineA ∧ growth_spec machineA :=
  ⟨by decide, growth_correct_c4 machineA (by decide)⟩

/-- `go_right` preserves agreement of the counter with the cell count. -/
lemma len_ok_go_right {m : TuringMachine} (h : len_ok m) :
    len_ok m.go_right := by
  unfold len_ok at *
  simp only [TuringMachine.go_right]
  split <;> simp [h]

/-- `go_left` preserves agreement of the counter with the cell count. -/
lemma len_ok_go_left {m : TuringMachine} (h : len_ok m) :
    len_ok m.go_left := by
  unfold len_ok at *
  simp only [TuringMachine.go_left]
  split <;> simp [h]

/-- `write` preserves agreement of the counter with the cell count. -/
lemma len_ok_write {m : TuringMachine} (h : len_ok m) (s : Symbol) :
    len_ok (m.write s) := by
  unfold len_ok TuringMachine.write at *
  simpa using h

/-- C10: the stored `_tape_length` counter always equals the number of
cells of `_tape`: `input_tape`-style initialization establishes the
equality and `go_right`, `go_left`, `write` and `next` all preserve it;
together with the head invariant it puts every `read` in bounds. -/
theorem length_counter_invariant_c10 :
    (∀ (d : MachineDef) (input : List Symbol), len_ok (d.start input)) ∧
    (∀ m : TuringMachine, len_ok m →
      len_ok m.go_right ∧ len_ok m.go_left ∧ (∀ s, len_ok (m.write s)) ∧
      ∀ out m', m.next = some (out, m') → len_ok m') ∧
    (∀ m : TuringMachine, len_ok m → head_ok m → (m.read).isSome = true) := by
  refine ⟨fun d input => rfl, ?_, ?_⟩
  · intro m h
    refine ⟨len_ok_go_right h, len_ok_go_left h, fun s => len_ok_write h s, ?_⟩
    intro out m' hstep
    cases hr : m.read with
    | none => rw [next_read_none hr] at hstep; exact absurd hstep (by simp)
    | some sym =>
      cases hd : m.delta m.current_state sym with
      | none =>
        rw [next_delta_none hr hd] at hstep
        simp only [Option.some.injEq, Prod.mk.injEq] at hstep
        rw [← hstep.2]; exact h
      | some act =>
        obtain ⟨new_sym, q, dir⟩ := act
        rw [next_delta_some hr hd] at hstep
        simp only [Option.some.injEq, Prod.mk.injEq] at hstep
        rw [← hstep.2]
        have h1 : len_ok ({ m.write new_sym with current_state := q }) :=
          len_ok_write h new_sym
        by_cases hdir : dir = RIGHT
        · simpa [hdir] using len_ok_go_right h1
        · simpa [hdir] using len_ok_go_left h1
  · intro m hl hh
    unfold TuringMachine.read
    rw [List.get?_eq_get (hl ▸ hh)]
    rfl

/-- Witness for C10: the invariant holds of Scenario A's machine and is
preserved by a move on it. -/
theorem length_counter_invariant_c10_witness :
    len_ok machineA ∧ len_ok machineA.go_right :=
  ⟨by decide, (length_counter_invariant_c10.2.1 machineA (by decide)).1⟩

/-- C6, counterexample: a fresh Scenario B machine on input `"1"`
accepts its first step, but the same machine after that one-step run,
re-initialized with `input_tape` on the same input `"1"`, rejects its
first step — `input_tape` resets the tape, its length and the head but
leaves the current state at `q1` from the previous run, so the two runs
are not independent. -/
theorem rerun_not_independent_c6_counterexample :
    stepOutcome machineB = some (some ACCEPT) ∧
    stepOutcome ((stepMachine machineB).input_tape ["1"]) =
      some (some REJECT) ∧
    ((stepMachine machineB).input_tape ["1"]).current_state = "q1" ∧
    machineB.current_state = "q0" := by decide

/-- C6 (amended): `input_tape` initializes only the tape fields and
preserves `current_state`; consequently re-running input `b` on a
machine coincides with running `b` on a freshly constructed machine with
definition `d` exactly when the machine's definitional fields — its
current state included — equal `d`'s.  After a run that left the machine
in another state, the re-run differs from the fresh run (see the
counterexample). -/
theorem input_tape_semantics_c6 (d : MachineDef) (m : TuringMachine)
    (b : List Symbol) (hdef : m.toMachineDef = d) :
    (m.input_tape b).current_state = m.current_state ∧
    m.input_tape b = d.start b := by
  subst hdef
  exact ⟨rfl, rfl⟩

/-- Witness for C6: a machine whose definitional part still equals
`defB` re-initializes exactly like a fresh start. -/
theorem input_tape_semantics_c6_witness :
    machineB.toMachineDef = defB ∧
    ((machineB.input_tape ["1"]).current_state = machineB.current_state ∧
     machineB.input_tape ["1"] = defB.start ["1"]) :=
  ⟨rfl, input_tape_semantics_c6 defB machineB ["1"] rfl⟩

/-- C7: the object is constructed successfully exactly when
`initial_state ∈ states` and `accepting ⊆ states`; an invalid initial
state raises an error naming it (checked first), invalid accepting
states raise an error naming the set difference, and a successful
construction stores the given fields with `current_state` the initial
state. -/
theorem construction_valid_c7 (states accepting : Finset State)
    (q0 : State) (td : TransitionFunction) :
    ((∃ dm, TuringMachine.construct states q0 td accepting = .ok dm) ↔
      (q0 ∈ states ∧ accepting ⊆ states)) ∧
    (q0 ∉ states →
      TuringMachine.construct states q0 td accepting =
        .error (.initial_not_in_states q0)) ∧
    (q0 ∈ states → ¬ accepting ⊆ states →
      TuringMachine.construct states q0 td accepting =
        .error (.invalid_accepting (accepting \ states))) ∧
    (q0 ∈ states → accepting ⊆ states →
      TuringMachine.construct states q0 td accepting =
        .ok { states := states, accepting := accepting,
              current_state := q0, delta := td }) := by
  have herr1 : q0 ∉ states →
      TuringMachine.construct states q0 td accepting =
        .error (.initial_not_in_states q0) := by
    intro h1; unfold TuringMachine.construct; simp [h1]
  have herr2 : q0 ∈ states → ¬ accepting ⊆ states →
      TuringMachine.construct states q0 td accepting =
        .error (.invalid_accepting (accepting \ states)) := by
    intro h1 h2; unfold TuringMachine.construct; simp [h1, h2]
  have hok : q0 ∈ states → accepting ⊆ states →
      TuringMachine.construct states q0 td accepting =
        .ok { states := states, accepting := accepting,
              current_state := q0, delta := td } := by
    intro h1 h2; unfold TuringMachine.construct; simp [h1, h2]
  refine ⟨⟨?_, ?_⟩, herr1, herr2, hok⟩
  · rintro ⟨dm, hdm⟩
    by_cases h1 : q0 ∈ states
    · by_cases h2 : accepting ⊆ states
      · exact ⟨h1, h2⟩
      · rw [herr2 h1 h2] at hdm; exact Except.noConfusion hdm
    · rw [herr1 h1] at hdm; exact Except.noConfusion hdm
  · rintro ⟨h1, h2⟩
    exact ⟨_, hok h1 h2⟩

/-- Witness for C7: an initial state outside the state set is refused
with an error naming it. -/
theorem construction_valid_c7_witness :
    ("q1" ∉ ({"q0"} : Finset State)) ∧
    TuringMachine.construct {"q0"} "q1" deltaA {"q0"} =
      .error (.initial_not_in_states "q1") :=
  ⟨by decide,
   (construction_valid_c7 {"q0"} {"q0"} "q1" deltaA).2.1 (by decide)⟩

/-- C8: initializing the tape from the empty input yields the one-cell
tape `[BLANK]` with the counter at 1 and the head at index 0; from a
non-empty input it yields exactly that sequence with the counter at its
length and the head at index 0.  (`MachineDef.start` and
`TuringMachine.input_tape` are total: initialization never fails.) -/
theorem tape_initialization_c8 (d : MachineDef) (input : List Symbol) :
    (d.start input).index = 0 ∧
    (input = [] →
      (d.start input).tape = [BLANK] ∧ (d.start input).tape_length = 1 ∧
      (d.start input).tape.get? 0 = some BLANK) ∧
    (input ≠ [] →
      (d.start input).tape = input ∧
      (d.start input).tape_length = input.length) := by
  refine ⟨rfl, ?_, ?_⟩
  · rintro rfl
    exact ⟨rfl, rfl, rfl⟩
  · intro hne
    cases input with
    | nil => exact absurd rfl hne
    | cons a l => exact ⟨rfl, rfl⟩

/-- Witness for C8: the empty input and the input `"1"`. -/
theorem tape_initialization_c8_witness :
    (([] : List Symbol) = [] ∧
      ((defA.start []).tape = [BLANK] ∧ (defA.start []).tape_length = 1 ∧
       (defA.start []).tape.get? 0 = some BLANK)) ∧
    ((["1"] : List Symbol) ≠ [] ∧
      ((defA.start ["1"]).tape = ["1"] ∧
       (defA.start ["1"]).tape_length = ["1"].length)) :=
  ⟨⟨rfl, (tape_initialization_c8 defA []).2.1 rfl⟩,
   ⟨by decide, (tape_initialization_c8 defA ["1"]).2.2 (by decide)⟩⟩

end TMSim
